import Mathlib

/-!
# route53 provider: the four public record operations

A shallow embedding of `provider.go`.  The file defines the `Provider` type and its four
public methods `GetRecords`, `AppendRecords`, `DeleteRecords` and `SetRecords`.  Every
method is a short sequence of calls to unexported methods of `Provider` (`init`,
`getZoneID`, `getRecords`, `createRecord`, `updateRecord`, `deleteRecord`) and, in
`AppendRecords`, to `fmt.Println`.  Those callees are declared elsewhere; here they are the
fields of an environment `Env`, each one a state transformer on a world `σ` that stands for
everything a callee can read or write (the provider's `client` field, the remote zone data,
the standard output).

A Go result pair `([]libdns.Record, error)` is a pair `List Record × Option ε`; the `nil`
slice is the empty list and the `nil` error is `none`.
-/

namespace Route53

/-! ## Data model -/

/-- Modelled from the spec: `libdns.Record`, declared in the imported package
`github.com/libdns/libdns`.  The fields are the ones the spec's data model lists (ID, name,
type, value, TTL); `provider.go` itself reads `ID`, `Name` and `Value`.  The type field is
spelled `Typ` because `Type` is reserved. -/
structure Record where
  ID : String
  Typ : String
  Name : String
  Value : String
  TTL : Int
deriving DecidableEq, Repr

/-- One operand of a `fmt.Println` call: a string or an `error` value. -/
inductive Operand (ε : Type) where
  | str (s : String)
  | err (e : ε)
deriving DecidableEq, Repr

/-- Everything `provider.go` calls but does not define.  `κ` is `context.Context`, `ε` is
Go's `error`, `σ` is the world the callees act on.  A callee that returns `(x, err)` is
read through `Except`: the callers in `provider.go` look at `x` only when `err == nil`.
Zone identifiers are strings. -/
structure Env (σ ε κ : Type) where
  /-- The call `p.init(ctx)`. -/
  init : κ → σ → σ
  /-- The call `p.getZoneID(ctx, zone)`. -/
  getZoneID : κ → String → σ → Except ε String × σ
  /-- The call `p.getRecords(ctx, zoneID, zone)`. -/
  getRecords : κ → String → String → σ → Except ε (List Record) × σ
  /-- The call `p.createRecord(ctx, zoneID, record, zone)`. -/
  createRecord : κ → String → Record → String → σ → Except ε Record × σ
  /-- The call `p.updateRecord(ctx, zoneID, record, zone)`. -/
  updateRecord : κ → String → Record → String → σ → Except ε Record × σ
  /-- The call `p.deleteRecord(ctx, zoneID, record, zone)`. -/
  deleteRecord : κ → String → Record → String → σ → Except ε Record × σ
  /-- The call `fmt.Println(operands...)`. -/
  println : List (Operand ε) → σ → σ

variable {σ ε κ : Type}

/-! ## The operations of `provider.go` -/

/-- The value a public operation returns together with the world it leaves behind. -/
abbrev Outcome (σ ε : Type) := (List Record × Option ε) × σ

/-- The loop shape shared by `AppendRecords`, `DeleteRecords` and `SetRecords`:
```
for _, record := range records {
    x, err := body(record)
    if err != nil { return nil, err }
    acc = append(acc, x)
}
return acc, nil
```
-/
def rangeLoop (body : Record → σ → Except ε Record × σ) :
    List Record → List Record → σ → Outcome σ ε
  | [], acc, s => ((acc, none), s)
  | record :: records, acc, s =>
    match body record s with
    | (.error err, s) => (([], some err), s)
    | (.ok x, s) => rangeLoop body records (acc ++ [x]) s

/-- `GetRecords` lists all the records in the zone. -/
def GetRecords (p : Env σ ε κ) (ctx : κ) (zone : String) (s : σ) : Outcome σ ε :=
  let s := p.init ctx s
  match p.getZoneID ctx zone s with
  | (.error err, s) => (([], some err), s)
  | (.ok zoneID, s) =>
    match p.getRecords ctx zoneID zone s with
    | (.error err, s) => (([], some err), s)
    | (.ok records, s) => ((records, none), s)

/-- The body of the loop of `AppendRecords`: print the record, create it, print the error
when there is one. -/
def AppendRecords.body (p : Env σ ε κ) (ctx : κ) (zoneID zone : String)
    (record : Record) (s : σ) : Except ε Record × σ :=
  let s := p.println
    [.str "Creating record: ", .str record.ID, .str record.Name, .str record.Value] s
  match p.createRecord ctx zoneID record zone s with
  | (.error err, s) => (.error err, p.println [.str "Failed to create record", .err err] s)
  | (.ok newRecord, s) => (.ok newRecord, s)

/-- `AppendRecords` adds records to the zone.  It returns the records that were added. -/
def AppendRecords (p : Env σ ε κ) (ctx : κ) (zone : String) (records : List Record)
    (s : σ) : Outcome σ ε :=
  let s := p.init ctx s
  let s := p.println [.str "Appending records for zone: ", .str zone] s
  match p.getZoneID ctx zone s with
  | (.error err, s) =>
    let s := p.println [.str "Failed to get zone ID", .err err] s
    (([], some err), s)
  | (.ok zoneID, s) => rangeLoop (AppendRecords.body p ctx zoneID zone) records [] s

/-- `DeleteRecords` deletes the records from the zone.  It returns the records that were
deleted. -/
def DeleteRecords (p : Env σ ε κ) (ctx : κ) (zone : String) (records : List Record)
    (s : σ) : Outcome σ ε :=
  let s := p.init ctx s
  match p.getZoneID ctx zone s with
  | (.error err, s) => (([], some err), s)
  | (.ok zoneID, s) =>
    rangeLoop (fun record s => p.deleteRecord ctx zoneID record zone s) records [] s

/-- `SetRecords` sets the records in the zone, either by updating existing records or
creating new ones.  It returns the updated records. -/
def SetRecords (p : Env σ ε κ) (ctx : κ) (zone : String) (records : List Record)
    (s : σ) : Outcome σ ε :=
  let s := p.init ctx s
  match p.getZoneID ctx zone s with
  | (.error err, s) => (([], some err), s)
  | (.ok zoneID, s) =>
    rangeLoop (fun record s => p.updateRecord ctx zoneID record zone s) records [] s

/-! ## The three mutating operations, uniformly -/

/-- The three mutating public operations. -/
inductive Verb where
  | Append
  | Set
  | Delete
deriving DecidableEq, Repr

/-- The four public operations. -/
inductive Op where
  | Get
  | Mutate (v : Verb)
deriving DecidableEq, Repr

/-- The public operation a verb names. -/
def Verb.run (p : Env σ ε κ) : Verb → κ → String → List Record → σ → Outcome σ ε
  | .Append => AppendRecords p
  | .Set => SetRecords p
  | .Delete => DeleteRecords p

/-- The public operation an `Op` names; `GetRecords` takes no record list. -/
def Op.run (p : Env σ ε κ) : Op → κ → String → List Record → σ → Outcome σ ε
  | .Get => fun ctx zone _ s => GetRecords p ctx zone s
  | .Mutate v => v.run p

/-- The per-record mutator of each operation: `createRecord` for `AppendRecords`,
`updateRecord` for `SetRecords`, `deleteRecord` for `DeleteRecords`. -/
def Verb.mutator (p : Env σ ε κ) :
    Verb → κ → String → Record → String → σ → Except ε Record × σ
  | .Append => p.createRecord
  | .Set => p.updateRecord
  | .Delete => p.deleteRecord

/-- The loop body of each operation, as it is passed to `rangeLoop`. -/
def Verb.body (p : Env σ ε κ) (v : Verb) (ctx : κ) (zoneID zone : String) :
    Record → σ → Except ε Record × σ :=
  match v with
  | .Append => AppendRecords.body p ctx zoneID zone
  | .Set => fun record s => p.updateRecord ctx zoneID record zone s
  | .Delete => fun record s => p.deleteRecord ctx zoneID record zone s

/-- The world in which an operation calls `getZoneID`: after `p.init(ctx)` and, in
`AppendRecords`, after the first `fmt.Println`. -/
def Op.enter (p : Env σ ε κ) (op : Op) (ctx : κ) (zone : String) (s : σ) : σ :=
  match op with
  | .Mutate .Append =>
    p.println [.str "Appending records for zone: ", .str zone] (p.init ctx s)
  | _ => p.init ctx s

/-- The world an operation returns in when `getZoneID` failed with `err` and left `s`:
`AppendRecords` prints the error first. -/
def Op.leave (p : Env σ ε κ) (op : Op) (err : ε) (s : σ) : σ :=
  match op with
  | .Mutate .Append => p.println [.str "Failed to get zone ID", .err err] s
  | _ => s

/-- The world in which an iteration that starts in `s` calls the mutator on `record`:
`AppendRecords` prints the record first. -/
def Verb.callState (p : Env σ ε κ) (v : Verb) (record : Record) (s : σ) : σ :=
  match v with
  | .Append =>
    p.println
      [.str "Creating record: ", .str record.ID, .str record.Name, .str record.Value] s
  | _ => s

/-- The world at the start of iteration `i` of the loop entered in `s0`: the effects of the
loop body on the first `i` records, applied in order. -/
def Verb.stateAt (p : Env σ ε κ) (v : Verb) (ctx : κ) (zoneID zone : String)
    (records : List Record) (s0 : σ) (i : Nat) : σ :=
  (records.take i).foldl (fun s record => (v.body p ctx zoneID zone record s).2) s0

/-- What the mutator answers when iteration `i` calls it on `record`. -/
def Verb.outcomeAt (p : Env σ ε κ) (v : Verb) (ctx : κ) (zoneID zone : String)
    (records : List Record) (s0 : σ) (i : Nat) (record : Record) : Except ε Record :=
  (v.mutator p ctx zoneID record zone
    (v.callState p record (v.stateAt p ctx zoneID zone records s0 i))).1

/-! ## Call traces -/

/-- One call made by a public operation, with its arguments and, for the calls that
return something, what came back. -/
inductive Event (ε : Type) where
  | init
  | println (operands : List (Operand ε))
  | getZoneID (zone : String) (out : Except ε String)
  | getRecords (zoneID zone : String) (out : Except ε (List Record))
  | createRecord (zoneID : String) (record : Record) (zone : String) (out : Except ε Record)
  | updateRecord (zoneID : String) (record : Record) (zone : String) (out : Except ε Record)
  | deleteRecord (zoneID : String) (record : Record) (zone : String) (out : Except ε Record)

/-- Is the event a call of `p.init`? -/
def Event.isInit : Event ε → Bool
  | .init => true
  | _ => false

/-- Is the event a call of `p.getZoneID`? -/
def Event.isZoneLookup : Event ε → Bool
  | .getZoneID _ _ => true
  | _ => false

/-- Is the event a call of the record reader `p.getRecords`? -/
def Event.isReader : Event ε → Bool
  | .getRecords _ _ _ => true
  | _ => false

/-- The operation whose mutator the event is a call of, if it is a mutator call. -/
def Event.verb : Event ε → Option Verb
  | .createRecord _ _ _ _ => some .Append
  | .updateRecord _ _ _ _ => some .Set
  | .deleteRecord _ _ _ _ => some .Delete
  | _ => none

/-- Is the event a call of `createRecord`, `updateRecord` or `deleteRecord`? -/
def Event.isMutator (e : Event ε) : Bool := e.verb.isSome

/-- The record a mutator call was made on. -/
def Event.mutated : Event ε → Option Record
  | .createRecord _ record _ _ => some record
  | .updateRecord _ record _ _ => some record
  | .deleteRecord _ record _ _ => some record
  | _ => none

/-- The zone ID argument of a reader or mutator call. -/
def Event.zoneIDArg : Event ε → Option String
  | .getRecords zoneID _ _ => some zoneID
  | .createRecord zoneID _ _ _ => some zoneID
  | .updateRecord zoneID _ _ _ => some zoneID
  | .deleteRecord zoneID _ _ _ => some zoneID
  | _ => none

/-- The environment `p` with a recorder attached: every callee behaves as in `p` and
appends its call to the trace carried next to the world. -/
def traced (p : Env σ ε κ) : Env (σ × List (Event ε)) ε κ where
  init ctx st := (p.init ctx st.1, st.2 ++ [Event.init])
  getZoneID ctx zone st :=
    let r := p.getZoneID ctx zone st.1
    (r.1, (r.2, st.2 ++ [Event.getZoneID zone r.1]))
  getRecords ctx zoneID zone st :=
    let r := p.getRecords ctx zoneID zone st.1
    (r.1, (r.2, st.2 ++ [Event.getRecords zoneID zone r.1]))
  createRecord ctx zoneID record zone st :=
    let r := p.createRecord ctx zoneID record zone st.1
    (r.1, (r.2, st.2 ++ [Event.createRecord zoneID record zone r.1]))
  updateRecord ctx zoneID record zone st :=
    let r := p.updateRecord ctx zoneID record zone st.1
    (r.1, (r.2, st.2 ++ [Event.updateRecord zoneID record zone r.1]))
  deleteRecord ctx zoneID record zone st :=
    let r := p.deleteRecord ctx zoneID record zone st.1
    (r.1, (r.2, st.2 ++ [Event.deleteRecord zoneID record zone r.1]))
  println operands st := (p.println operands st.1, st.2 ++ [Event.println operands])

/-- The calls a public operation makes when run from `s`, in the order it makes them. -/
def Op.trace (p : Env σ ε κ) (op : Op) (ctx : κ) (zone : String) (records : List Record)
    (s : σ) : List (Event ε) :=
  (op.run (traced p) ctx zone records (s, [])).2.2

/-- The records the mutators were called on, in call order. -/
def mutatedRecords (trace : List (Event ε)) : List Record :=
  trace.filterMap Event.mutated

/-! ## The delete path of the record mutator

`deleteRecord` is called by `provider.go` and declared in another file of the repository.
The definitions of this section follow the specification's description of the Record
Locator and of the Mutator's delete operation. -/

namespace Model

/-- Modelled from the spec: a provider-side record set, "a named, typed collection of one or
more values sharing TTL". -/
structure RecordSet where
  Name : String
  Typ : String
  TTL : Int
  Values : List String
deriving DecidableEq, Repr

/-- Modelled from the spec: the action of a change request. -/
inductive ChangeAction where
  | CREATE
  | UPSERT
  | DELETE
deriving DecidableEq, Repr

/-- Modelled from the spec: the part of the remote API that the Record Locator and the
Mutator's delete path consume.  `recordSets zoneID s` are the record sets the zone holds in
world `s`, in provider order; `listError zoneID s` is the error with which the remote list
call for the zone fails in world `s`, if it fails (the spec's `RecordLookupFailed`);
`identity name typ` is the opaque ID that stands for the record set of that name and type;
`submit action zoneID set s` submits a single-item change batch (with its retries and
propagation wait) and answers with the error, if any. -/
structure Remote (σ ε : Type) where
  recordSets : String → σ → List RecordSet
  listError : String → σ → Option ε
  identity : String → String → String
  submit : ChangeAction → String → RecordSet → σ → Option ε × σ

/-- Modelled from the spec: the Record Locator `findRecord(ZoneID, Record)`.  It lists the
record sets of the zone; a failure of the list call is its own failure.  A record with a
non-empty ID is first looked up by that ID, compared for equality with the identity of each
record set; when that search finds nothing, or the ID is empty, the record is looked up by
exact match on name and type.  The first matching set is used. -/
def findRecord (api : Remote σ ε) (zoneID : String) (record : Record) (s : σ) :
    Except ε (Option RecordSet) :=
  match api.listError zoneID s with
  | some err => .error err
  | none =>
    let sets := api.recordSets zoneID s
    let byNameType :=
      sets.find? (fun set => decide (set.Name = record.Name ∧ set.Typ = record.Typ))
    if record.ID = "" then .ok byNameType
    else
      match sets.find? (fun set => decide (api.identity set.Name set.Typ = record.ID)) with
      | some set => .ok (some set)
      | none => .ok byNameType

/-- Modelled from the spec: the Mutator's delete operation.  The Locator resolves the target
set; a lookup failure is returned as the error of the operation.  If there is no target set
the input record is returned unchanged and nothing is submitted; if there is one, a DELETE
change request carrying the set as found (its full current value list) is submitted. -/
def deleteRecord (api : Remote σ ε) (_ctx : κ) (zoneID : String) (record : Record)
    (_zone : String) (s : σ) : Except ε Record × σ :=
  match findRecord api zoneID record s with
  | .error err => (.error err, s)
  | .ok none => (.ok record, s)
  | .ok (some set) =>
    match api.submit .DELETE zoneID set s with
    | (some err, s) => (.error err, s)
    | (none, s) => (.ok record, s)

/-- The environment `p` with the modelled `deleteRecord` in the place of its own. -/
def env (p : Env σ ε κ) (api : Remote σ ε) : Env σ ε κ where
  init := p.init
  getZoneID := p.getZoneID
  getRecords := p.getRecords
  createRecord := p.createRecord
  updateRecord := p.updateRecord
  deleteRecord := deleteRecord api
  println := p.println

end Model

/-! ## A small in-memory provider

A concrete environment on which the statements below are exercised.  Its world is the list
of records held by the one zone it hosts; contexts carry nothing and errors are strings. -/

namespace Memory

/-- The in-memory provider.  It hosts every zone name with a non-empty name under the zone
ID `Z1`.  A record with a negative TTL is refused by every mutator with the error
`context canceled`; `createRecord` stores the record, `updateRecord` replaces the records of
the same name and type by it, `deleteRecord` removes them. -/
def env : Env (List Record) String Unit where
  init _ s := s
  getZoneID _ zone s :=
    if zone.length = 0 then (.error "zone not found", s) else (.ok "Z1", s)
  getRecords _ _ _ s := (.ok s, s)
  createRecord _ _ record _ s :=
    if record.TTL < 0 then (.error "context canceled", s) else (.ok record, s ++ [record])
  updateRecord _ _ record _ s :=
    if record.TTL < 0 then (.error "context canceled", s)
    else (.ok record,
      s.filter (fun r => !decide (r.Name = record.Name ∧ r.Typ = record.Typ)) ++ [record])
  deleteRecord _ _ record _ s :=
    if record.TTL < 0 then (.error "context canceled", s)
    else (.ok record, s.filter (fun r => !decide (r.Name = record.Name ∧ r.Typ = record.Typ)))
  println _ s := s

/-- A record of type A named `www` with the given value and TTL. -/
def aRecord (value : String) (ttl : Int) : Record :=
  { ID := "", Typ := "A", Name := "www", Value := value, TTL := ttl }

/-- A batch of five records whose third record is refused. -/
def batch : List Record :=
  [aRecord "10.0.0.1" 60, aRecord "10.0.0.2" 60, aRecord "10.0.0.3" (-1),
    aRecord "10.0.0.4" 60, aRecord "10.0.0.5" 60]

/-- A batch of two records that every mutator accepts. -/
def goodBatch : List Record := [aRecord "10.0.0.1" 60, aRecord "10.0.0.2" 60]

/-- A remote API over the same world: the record sets of zone `Z1` are the stored records,
one single-valued set each; the list call never fails; a DELETE removes the records of the
set's name and type. -/
def api : Model.Remote (List Record) String where
  recordSets zoneID s :=
    if zoneID = "Z1" then
      s.map (fun r => { Name := r.Name, Typ := r.Typ, TTL := r.TTL, Values := [r.Value] })
    else []
  listError _ _ := none
  identity name typ := name ++ "/" ++ typ
  submit _ _ set s :=
    (none, s.filter (fun r => !decide (r.Name = set.Name ∧ r.Typ = set.Typ)))

end Memory

/-! ## Expected traces

The calls one iteration and one loop leave in the trace, computed from the untraced
environment.  They are used to describe the trace of a traced run. -/

/-- The calls one iteration of the loop of `v` makes on `record` from world `s`. -/
def Verb.bodyEvents (p : Env σ ε κ) (v : Verb) (ctx : κ) (zoneID zone : String)
    (record : Record) (s : σ) : List (Event ε) :=
  match v with
  | .Append =>
    let out := (p.createRecord ctx zoneID record zone (v.callState p record s)).1
    [Event.println
        [.str "Creating record: ", .str record.ID, .str record.Name, .str record.Value],
      Event.createRecord zoneID record zone out] ++
      (match out with
        | .error err => [Event.println [.str "Failed to create record", .err err]]
        | .ok _ => [])
  | .Set => [Event.updateRecord zoneID record zone (p.updateRecord ctx zoneID record zone s).1]
  | .Delete =>
    [Event.deleteRecord zoneID record zone (p.deleteRecord ctx zoneID record zone s).1]

/-- The calls the loop of `v` makes on `records` from world `s`. -/
def Verb.loopEvents (p : Env σ ε κ) (v : Verb) (ctx : κ) (zoneID zone : String) :
    List Record → σ → List (Event ε)
  | [], _ => []
  | record :: records, s =>
    v.bodyEvents p ctx zoneID zone record s ++
      (match v.body p ctx zoneID zone record s with
        | (.error _, _) => []
        | (.ok _, s) => v.loopEvents p ctx zoneID zone records s)

/-- The calls an operation makes before it calls `getZoneID`. -/
def Op.prologue (op : Op) (zone : String) : List (Event ε) :=
  match op with
  | .Mutate .Append =>
    [Event.init, Event.println [.str "Appending records for zone: ", .str zone]]
  | _ => [Event.init]

/-- The calls an operation makes after `getZoneID` failed with `err`. -/
def Op.epilogue (op : Op) (err : ε) : List (Event ε) :=
  match op with
  | .Mutate .Append => [Event.println [.str "Failed to get zone ID", .err err]]
  | _ => []

/-! ## The loop -/

section Loop

variable (body : Record → σ → Except ε Record × σ)

theorem rangeLoop_all_ok : ∀ (records acc : List Record) (s : σ),
    (∀ i record, records[i]? = some record →
      ∃ x, (body record ((records.take i).foldl (fun s r => (body r s).2) s)).1 = .ok x) →
    ∃ outs, rangeLoop body records acc s
        = ((acc ++ outs, none), records.foldl (fun s r => (body r s).2) s) ∧
      outs.length = records.length ∧
      ∀ i record, records[i]? = some record →
        ∃ x, outs[i]? = some x ∧
          (body record ((records.take i).foldl (fun s r => (body r s).2) s)).1 = .ok x := by
  intro records
  induction records with
  | nil =>
    intro acc s _
    exact ⟨[], by simp [rangeLoop], rfl, by simp⟩
  | cons record rest ih =>
    intro acc s h
    obtain ⟨x, hx⟩ := h 0 record (by simp)
    rcases hb : body record s with ⟨o, s1⟩
    have ho : o = .ok x := by simpa [hb] using hx
    subst ho
    have hrest : ∀ i r, rest[i]? = some r →
        ∃ y, (body r ((rest.take i).foldl (fun s r => (body r s).2) s1)).1 = .ok y := by
      intro i r hi
      have := h (i + 1) r (by simpa using hi)
      simpa [hb] using this
    obtain ⟨outs, hrun, hlen, hpt⟩ := ih (acc ++ [x]) s1 hrest
    refine ⟨x :: outs, ?_, by simp [hlen], ?_⟩
    · simp [rangeLoop, hb, hrun]
    · intro i r hi
      cases i with
      | zero =>
        have hr : record = r := by simpa using hi
        subst hr
        exact ⟨x, by simp, by simpa using hx⟩
      | succ j =>
        obtain ⟨y, hy1, hy2⟩ := hpt j r (by simpa using hi)
        exact ⟨y, by simpa using hy1, by simpa [hb] using hy2⟩

theorem rangeLoop_first_error : ∀ (records acc : List Record) (s : σ) (k : Nat)
    (record : Record) (err : ε),
    records[k]? = some record →
    (∀ i r, i < k → records[i]? = some r →
      ∃ x, (body r ((records.take i).foldl (fun s r => (body r s).2) s)).1 = .ok x) →
    (body record ((records.take k).foldl (fun s r => (body r s).2) s)).1 = .error err →
    rangeLoop body records acc s
      = (([], some err),
          (body record ((records.take k).foldl (fun s r => (body r s).2) s)).2) := by
  intro records
  induction records with
  | nil => intro acc s k record err hk; simp at hk
  | cons r0 rest ih =>
    intro acc s k record err hk hok herr
    cases k with
    | zero =>
      have hr : r0 = record := by simpa using hk
      subst hr
      rcases hb : body r0 s with ⟨o, s1⟩
      have ho : o = .error err := by simpa [hb] using herr
      subst ho
      simp [rangeLoop, hb]
    | succ j =>
      obtain ⟨x, hx⟩ := hok 0 r0 (Nat.succ_pos j) (by simp)
      rcases hb : body r0 s with ⟨o, s1⟩
      have ho : o = .ok x := by simpa [hb] using hx
      subst ho
      have hrest : ∀ i r, i < j → rest[i]? = some r →
          ∃ y, (body r ((rest.take i).foldl (fun s r => (body r s).2) s1)).1 = .ok y := by
        intro i r hij hi
        have := hok (i + 1) r (Nat.succ_lt_succ hij) (by simpa using hi)
        simpa [hb] using this
      have := ih (acc ++ [x]) s1 j record err (by simpa using hk) hrest
        (by simpa [hb] using herr)
      simpa [rangeLoop, hb] using this

theorem rangeLoop_dichotomy : ∀ (records : List Record) (s : σ),
    (∀ i record, records[i]? = some record →
      ∃ x, (body record ((records.take i).foldl (fun s r => (body r s).2) s)).1 = .ok x) ∨
    ∃ k record err, records[k]? = some record ∧
      (∀ i r, i < k → records[i]? = some r →
        ∃ x, (body r ((records.take i).foldl (fun s r => (body r s).2) s)).1 = .ok x) ∧
      (body record ((records.take k).foldl (fun s r => (body r s).2) s)).1 = .error err := by
  intro records
  induction records with
  | nil => intro s; left; intro i record hi; simp at hi
  | cons r0 rest ih =>
    intro s
    rcases hb : body r0 s with ⟨o, s1⟩
    cases o with
    | error err =>
      right
      exact ⟨0, r0, err, by simp, by intro i r hi; omega, by simp [hb]⟩
    | ok x =>
      rcases ih s1 with hall | ⟨k, record, err, hk, hok, herr⟩
      · left
        intro i r hi
        cases i with
        | zero =>
          have hr : r0 = r := by simpa using hi
          subst hr
          exact ⟨x, by simp [hb]⟩
        | succ j =>
          obtain ⟨y, hy⟩ := hall j r (by simpa using hi)
          exact ⟨y, by simpa [hb] using hy⟩
      · right
        refine ⟨k + 1, record, err, by simpa using hk, ?_, by simpa [hb] using herr⟩
        intro i r hik hi
        cases i with
        | zero =>
          have hr : r0 = r := by simpa using hi
          subst hr
          exact ⟨x, by simp [hb]⟩
        | succ j =>
          obtain ⟨y, hy⟩ := hok j r (by omega) (by simpa using hi)
          exact ⟨y, by simpa [hb] using hy⟩

end Loop

/-! ## The mutating operations as a zone lookup followed by the loop -/

theorem Verb.run_eq (p : Env σ ε κ) (v : Verb) (ctx : κ) (zone : String)
    (records : List Record) (s : σ) :
    v.run p ctx zone records s =
      match p.getZoneID ctx zone (Op.enter p (.Mutate v) ctx zone s) with
      | (.error err, s1) => (([], some err), Op.leave p (.Mutate v) err s1)
      | (.ok zoneID, s1) => rangeLoop (v.body p ctx zoneID zone) records [] s1 := by
  cases v <;> rfl

theorem Verb.run_resolved (p : Env σ ε κ) (v : Verb) (ctx : κ) (zone : String)
    (records : List Record) (s : σ) (zoneID : String) (s0 : σ)
    (hzone : p.getZoneID ctx zone (Op.enter p (.Mutate v) ctx zone s) = (.ok zoneID, s0)) :
    v.run p ctx zone records s = rangeLoop (v.body p ctx zoneID zone) records [] s0 := by
  rw [Verb.run_eq, hzone]

theorem Verb.body_fst (p : Env σ ε κ) (v : Verb) (ctx : κ) (zoneID zone : String)
    (record : Record) (s : σ) :
    (v.body p ctx zoneID zone record s).1
      = (v.mutator p ctx zoneID record zone (v.callState p record s)).1 := by
  cases v
  · simp only [Verb.body, AppendRecords.body, Verb.mutator, Verb.callState]
    split <;> rename_i h <;> simp [h]
  · rfl
  · rfl

theorem Verb.outcomeAt_eq (p : Env σ ε κ) (v : Verb) (ctx : κ) (zoneID zone : String)
    (records : List Record) (s0 : σ) (i : Nat) (record : Record) :
    v.outcomeAt p ctx zoneID zone records s0 i record
      = (v.body p ctx zoneID zone record
          ((records.take i).foldl (fun s r => (v.body p ctx zoneID zone r s).2) s0)).1 := by
  rw [Verb.body_fst]; rfl

/-! ## Return values of the mutating operations -/

/-- C1. When the zone resolves and the mutator succeeds on every input record, the
operation reports no error and returns the mutator's results in input order: the result is
as long as the input and its `i`-th element is what the mutator returned for the `i`-th
input record.  The empty input is included. -/
theorem mutation_returns_results_in_order (p : Env σ ε κ) (v : Verb) (ctx : κ)
    (zone : String) (records : List Record) (s : σ) (zoneID : String) (s0 : σ)
    (hzone : p.getZoneID ctx zone (Op.enter p (.Mutate v) ctx zone s) = (.ok zoneID, s0))
    (hall : ∀ i record, records[i]? = some record →
      ∃ x, v.outcomeAt p ctx zoneID zone records s0 i record = .ok x) :
    ∃ outs, (v.run p ctx zone records s).1 = (outs, none) ∧
      outs.length = records.length ∧
      ∀ i record, records[i]? = some record →
        ∃ x, outs[i]? = some x ∧
          v.outcomeAt p ctx zoneID zone records s0 i record = .ok x := by
  simp only [Verb.outcomeAt_eq] at hall ⊢
  obtain ⟨outs, hrun, hlen, hpt⟩ :=
    rangeLoop_all_ok (v.body p ctx zoneID zone) records [] s0 hall
  refine ⟨outs, ?_, hlen, hpt⟩
  rw [Verb.run_resolved p v ctx zone records s zoneID s0 hzone, hrun]
  simp

/-- C2. With the zone resolved, the operation returns the error `err` exactly when some
record is the first one the mutator fails on and `err` is the mutator's error for it; it
returns an error exactly when the mutator fails on at least one input record; and whenever
it returns an error the returned list is empty, whatever succeeded before. -/
theorem mutation_error_is_first_failure (p : Env σ ε κ) (v : Verb) (ctx : κ)
    (zone : String) (records : List Record) (s : σ) (zoneID : String) (s0 : σ)
    (hzone : p.getZoneID ctx zone (Op.enter p (.Mutate v) ctx zone s) = (.ok zoneID, s0)) :
    (∀ err, (v.run p ctx zone records s).1.2 = some err ↔
      ∃ k record, records[k]? = some record ∧
        (∀ i r, i < k → records[i]? = some r →
          ∃ x, v.outcomeAt p ctx zoneID zone records s0 i r = .ok x) ∧
        v.outcomeAt p ctx zoneID zone records s0 k record = .error err) ∧
    ((v.run p ctx zone records s).1.2 ≠ none ↔
      ∃ i record err, records[i]? = some record ∧
        v.outcomeAt p ctx zoneID zone records s0 i record = .error err) ∧
    ((v.run p ctx zone records s).1.2 ≠ none → (v.run p ctx zone records s).1.1 = []) := by
  simp only [Verb.outcomeAt_eq]
  rw [Verb.run_resolved p v ctx zone records s zoneID s0 hzone]
  have hfirst := rangeLoop_first_error (v.body p ctx zoneID zone) records [] s0
  rcases rangeLoop_dichotomy (v.body p ctx zoneID zone) records s0 with
    hall | ⟨k, record, err, hk, hok, herr⟩
  · obtain ⟨outs, hrun, -, -⟩ :=
      rangeLoop_all_ok (v.body p ctx zoneID zone) records [] s0 hall
    rw [hrun]
    refine ⟨?_, ?_, ?_⟩
    · intro e
      constructor
      · intro h; simp at h
      · rintro ⟨j, r, hj, -, hbad⟩
        obtain ⟨x, hx⟩ := hall j r hj
        rw [hx] at hbad
        cases hbad
    · constructor
      · intro h; simp at h
      · rintro ⟨j, r, e, hj, hbad⟩
        obtain ⟨x, hx⟩ := hall j r hj
        rw [hx] at hbad
        cases hbad
    · intro h; simp at h
  · rw [hfirst k record err hk hok herr]
    refine ⟨?_, ?_, ?_⟩
    · intro e
      constructor
      · intro h
        have he : err = e := by simpa using h
        subst he
        exact ⟨k, record, hk, hok, herr⟩
      · rintro ⟨j, r, hj, hokj, hbad⟩
        have hjk : j = k := by
          rcases Nat.lt_trichotomy j k with hlt | heq | hgt
          · obtain ⟨x, hx⟩ := hok j r hlt hj
            rw [hx] at hbad
            cases hbad
          · exact heq
          · obtain ⟨x, hx⟩ := hokj k record hgt hk
            rw [hx] at herr
            cases herr
        subst hjk
        have hr : r = record := by
          rw [hj] at hk
          exact Option.some.inj hk
        subst hr
        rw [herr] at hbad
        simpa using hbad
    · constructor
      · intro _
        exact ⟨k, record, err, hk, herr⟩
      · intro _; simp
    · intro _; rfl

/-- C5. If the mutator succeeds on the first `k` records of a batch and the call for the
next record surfaces the error `cancelled` (the cancellation of the operation as the
blocking call reports it), the operation returns `cancelled` and a list of at most `k`
records, never one as long as the batch.  With five records and `k = 2`: a cancellation
error and at most two records, never five. -/
theorem cancelled_batch_returns_error (p : Env σ ε κ) (v : Verb) (ctx : κ)
    (zone : String) (records : List Record) (s : σ) (zoneID : String) (s0 : σ)
    (k : Nat) (record : Record) (cancelled : ε)
    (hzone : p.getZoneID ctx zone (Op.enter p (.Mutate v) ctx zone s) = (.ok zoneID, s0))
    (hk : records[k]? = some record)
    (hok : ∀ i r, i < k → records[i]? = some r →
      ∃ x, v.outcomeAt p ctx zoneID zone records s0 i r = .ok x)
    (hcancel : v.outcomeAt p ctx zoneID zone records s0 k record = .error cancelled) :
    (v.run p ctx zone records s).1.2 = some cancelled ∧
      (v.run p ctx zone records s).1.1.length ≤ k ∧
      (v.run p ctx zone records s).1.1.length ≠ records.length := by
  simp only [Verb.outcomeAt_eq] at hok hcancel
  rw [Verb.run_resolved p v ctx zone records s zoneID s0 hzone,
    rangeLoop_first_error (v.body p ctx zoneID zone) records [] s0 k record cancelled hk hok
      hcancel]
  refine ⟨rfl, Nat.zero_le k, ?_⟩
  have hlt : k < records.length := by
    rcases Nat.lt_or_ge k records.length with h | h
    · exact h
    · rw [List.getElem?_eq_none h] at hk
      cases hk
  simp only [List.length_nil]
  omega

/-! ## Traced runs -/

theorem Verb.body_traced (p : Env σ ε κ) (v : Verb) (ctx : κ) (zoneID zone : String)
    (record : Record) (s : σ) (log : List (Event ε)) :
    v.body (traced p) ctx zoneID zone record (s, log)
      = ((v.body p ctx zoneID zone record s).1,
          ((v.body p ctx zoneID zone record s).2,
            log ++ v.bodyEvents p ctx zoneID zone record s)) := by
  cases v
  · simp only [Verb.body, AppendRecords.body, Verb.bodyEvents, Verb.callState, traced]
    rcases h : p.createRecord ctx zoneID record zone
      (p.println [.str "Creating record: ", .str record.ID, .str record.Name,
        .str record.Value] s) with ⟨o, s1⟩
    cases o <;> simp
  · simp [Verb.body, Verb.bodyEvents, traced]
  · simp [Verb.body, Verb.bodyEvents, traced]

theorem Verb.loop_traced (p : Env σ ε κ) (v : Verb) (ctx : κ) (zoneID zone : String) :
    ∀ (records acc : List Record) (s : σ) (log : List (Event ε)),
    rangeLoop (v.body (traced p) ctx zoneID zone) records acc (s, log)
      = ((rangeLoop (v.body p ctx zoneID zone) records acc s).1,
          ((rangeLoop (v.body p ctx zoneID zone) records acc s).2,
            log ++ v.loopEvents p ctx zoneID zone records s)) := by
  intro records
  induction records with
  | nil => intro acc s log; simp [rangeLoop, Verb.loopEvents]
  | cons record rest ih =>
    intro acc s log
    rcases hb : v.body p ctx zoneID zone record s with ⟨o, s1⟩
    cases o with
    | error err => simp [rangeLoop, Verb.loopEvents, Verb.body_traced, hb]
    | ok x => simp [rangeLoop, Verb.loopEvents, Verb.body_traced, hb, ih]

theorem Op.run_traced (p : Env σ ε κ) (op : Op) (ctx : κ) (zone : String)
    (records : List Record) (s : σ) :
    ((op.run (traced p) ctx zone records (s, [])).1,
        (op.run (traced p) ctx zone records (s, [])).2.1)
      = op.run p ctx zone records s := by
  rcases op with _ | v
  · simp only [Op.run, GetRecords, traced]
    rcases hz : p.getZoneID ctx zone (p.init ctx s) with ⟨o, s0⟩
    cases o with
    | error err => rfl
    | ok zoneID =>
      rcases hr : p.getRecords ctx zoneID zone s0 with ⟨o, s1⟩
      cases o <;> simp [hr]
  · simp only [Op.run, Verb.run_eq]
    rcases hz : p.getZoneID ctx zone (Op.enter p (.Mutate v) ctx zone s) with ⟨o, s0⟩
    have hz2 : (traced p).getZoneID ctx zone (Op.enter (traced p) (.Mutate v) ctx zone (s, []))
        = (o, (s0, Op.prologue (.Mutate v) zone ++ [Event.getZoneID zone o])) := by
      cases v <;> simp [traced, Op.enter, Op.prologue] at hz ⊢ <;> simp [hz]
    rw [hz2]
    cases o with
    | error err => cases v <;> simp [Op.leave, traced]
    | ok zoneID => simp [Verb.loop_traced]

theorem Op.trace_failed (p : Env σ ε κ) (op : Op) (ctx : κ) (zone : String)
    (records : List Record) (s : σ) (err : ε) (s0 : σ)
    (hzone : p.getZoneID ctx zone (op.enter p ctx zone s) = (.error err, s0)) :
    op.trace p ctx zone records s
      = op.prologue zone ++ Event.getZoneID zone (.error err) :: op.epilogue err := by
  rcases op with _ | v
  · simp only [Op.enter] at hzone
    simp [Op.trace, Op.run, GetRecords, traced, hzone, Op.prologue, Op.epilogue]
  · cases v <;> simp only [Op.enter] at hzone <;>
      simp [Op.trace, Op.run, Verb.run, AppendRecords, SetRecords, DeleteRecords, traced,
        hzone, Op.prologue, Op.epilogue]

theorem Verb.trace_resolved (p : Env σ ε κ) (v : Verb) (ctx : κ) (zone : String)
    (records : List Record) (s : σ) (zoneID : String) (s0 : σ)
    (hzone : p.getZoneID ctx zone (Op.enter p (.Mutate v) ctx zone s) = (.ok zoneID, s0)) :
    Op.trace p (.Mutate v) ctx zone records s
      = Op.prologue (.Mutate v) zone ++ Event.getZoneID zone (.ok zoneID) ::
          v.loopEvents p ctx zoneID zone records s0 := by
  have hz2 : (traced p).getZoneID ctx zone (Op.enter (traced p) (.Mutate v) ctx zone (s, []))
      = (.ok zoneID,
          (s0, Op.prologue (.Mutate v) zone ++ [Event.getZoneID zone (.ok zoneID)])) := by
    cases v <;> simp [traced, Op.enter, Op.prologue] at hzone ⊢ <;> simp [hzone]
  simp only [Op.trace, Op.run, Verb.run_eq, hz2, Verb.loop_traced]
  simp

theorem GetRecords_trace_resolved (p : Env σ ε κ) (ctx : κ) (zone : String)
    (records : List Record) (s : σ) (zoneID : String) (s0 : σ)
    (hzone : p.getZoneID ctx zone (p.init ctx s) = (.ok zoneID, s0)) :
    Op.trace p .Get ctx zone records s
      = [Event.init, Event.getZoneID zone (.ok zoneID),
          Event.getRecords zoneID zone (p.getRecords ctx zoneID zone s0).1] := by
  simp only [Op.trace, Op.run, GetRecords, traced, hzone]
  rcases hr : p.getRecords ctx zoneID zone s0 with ⟨o, s1⟩
  cases o <;> simp

/-! ## What the loop leaves in the trace -/

theorem Verb.bodyEvents_kinds (p : Env σ ε κ) (v : Verb) (ctx : κ) (zoneID zone : String)
    (record : Record) (s : σ) :
    ∀ e ∈ v.bodyEvents p ctx zoneID zone record s,
      e.isInit = false ∧ e.isZoneLookup = false ∧ e.isReader = false ∧
        (e.isMutator = true → e.verb = some v ∧ e.zoneIDArg = some zoneID) := by
  intro e he
  cases v
  · simp only [Verb.bodyEvents, List.cons_append, List.nil_append, List.mem_cons] at he
    rcases he with rfl | rfl | he
    · simp [Event.isInit, Event.isZoneLookup, Event.isReader, Event.isMutator, Event.verb]
    · simp [Event.isInit, Event.isZoneLookup, Event.isReader, Event.verb, Event.zoneIDArg]
    · split at he
      · simp only [List.mem_singleton] at he
        subst he
        simp [Event.isInit, Event.isZoneLookup, Event.isReader, Event.isMutator, Event.verb]
      · simp at he
  · simp only [Verb.bodyEvents, List.mem_singleton] at he
    subst he
    simp [Event.isInit, Event.isZoneLookup, Event.isReader, Event.verb, Event.zoneIDArg]
  · simp only [Verb.bodyEvents, List.mem_singleton] at he
    subst he
    simp [Event.isInit, Event.isZoneLookup, Event.isReader, Event.verb, Event.zoneIDArg]

theorem Verb.loopEvents_kinds (p : Env σ ε κ) (v : Verb) (ctx : κ) (zoneID zone : String) :
    ∀ (records : List Record) (s : σ), ∀ e ∈ v.loopEvents p ctx zoneID zone records s,
      e.isInit = false ∧ e.isZoneLookup = false ∧ e.isReader = false ∧
        (e.isMutator = true → e.verb = some v ∧ e.zoneIDArg = some zoneID) := by
  intro records
  induction records with
  | nil => intro s e he; simp [Verb.loopEvents] at he
  | cons record rest ih =>
    intro s e he
    simp only [Verb.loopEvents, List.mem_append] at he
    rcases he with he | he
    · exact Verb.bodyEvents_kinds p v ctx zoneID zone record s e he
    · split at he
      · simp at he
      · exact ih _ e he

theorem Verb.mutated_bodyEvents (p : Env σ ε κ) (v : Verb) (ctx : κ) (zoneID zone : String)
    (record : Record) (s : σ) :
    mutatedRecords (v.bodyEvents p ctx zoneID zone record s) = [record] := by
  cases v
  · simp only [mutatedRecords, Verb.bodyEvents]
    split <;> simp [List.filterMap_cons, Event.mutated]
  · simp [mutatedRecords, Verb.bodyEvents, List.filterMap_cons, Event.mutated]
  · simp [mutatedRecords, Verb.bodyEvents, List.filterMap_cons, Event.mutated]

theorem Verb.mutated_loop_all_ok (p : Env σ ε κ) (v : Verb) (ctx : κ)
    (zoneID zone : String) : ∀ (records : List Record) (s : σ),
    (∀ i record, records[i]? = some record →
      ∃ x, (v.body p ctx zoneID zone record
        ((records.take i).foldl (fun s r => (v.body p ctx zoneID zone r s).2) s)).1
          = .ok x) →
    mutatedRecords (v.loopEvents p ctx zoneID zone records s) = records := by
  intro records
  induction records with
  | nil => intro s _; simp [mutatedRecords, Verb.loopEvents]
  | cons record rest ih =>
    intro s h
    obtain ⟨x, hx⟩ := h 0 record (by simp)
    rcases hb : v.body p ctx zoneID zone record s with ⟨o, s1⟩
    have ho : o = .ok x := by simpa [hb] using hx
    subst ho
    have hrest : ∀ i r, rest[i]? = some r →
        ∃ y, (v.body p ctx zoneID zone r
          ((rest.take i).foldl (fun s r => (v.body p ctx zoneID zone r s).2) s1)).1
            = .ok y := by
      intro i r hi
      have := h (i + 1) r (by simpa using hi)
      simpa [hb] using this
    have hm := Verb.mutated_bodyEvents p v ctx zoneID zone record s
    simp only [mutatedRecords] at hm ih ⊢
    simp [Verb.loopEvents, hb, List.filterMap_append, hm, ih s1 hrest]

theorem Verb.mutated_loop_first_error (p : Env σ ε κ) (v : Verb) (ctx : κ)
    (zoneID zone : String) : ∀ (records : List Record) (s : σ) (k : Nat)
    (record : Record) (err : ε),
    records[k]? = some record →
    (∀ i r, i < k → records[i]? = some r →
      ∃ x, (v.body p ctx zoneID zone r
        ((records.take i).foldl (fun s r => (v.body p ctx zoneID zone r s).2) s)).1
          = .ok x) →
    (v.body p ctx zoneID zone record
      ((records.take k).foldl (fun s r => (v.body p ctx zoneID zone r s).2) s)).1
        = .error err →
    mutatedRecords (v.loopEvents p ctx zoneID zone records s) = records.take (k + 1) := by
  intro records
  induction records with
  | nil => intro s k record err hk; simp at hk
  | cons r0 rest ih =>
    intro s k record err hk hok herr
    have hm := Verb.mutated_bodyEvents p v ctx zoneID zone r0 s
    cases k with
    | zero =>
      have hr : r0 = record := by simpa using hk
      subst hr
      rcases hb : v.body p ctx zoneID zone r0 s with ⟨o, s1⟩
      have ho : o = .error err := by simpa [hb] using herr
      subst ho
      simp only [mutatedRecords] at hm ⊢
      simp [Verb.loopEvents, hb, hm]
    | succ j =>
      obtain ⟨x, hx⟩ := hok 0 r0 (Nat.succ_pos j) (by simp)
      rcases hb : v.body p ctx zoneID zone r0 s with ⟨o, s1⟩
      have ho : o = .ok x := by simpa [hb] using hx
      subst ho
      have hrest : ∀ i r, i < j → rest[i]? = some r →
          ∃ y, (v.body p ctx zoneID zone r
            ((rest.take i).foldl (fun s r => (v.body p ctx zoneID zone r s).2) s1)).1
              = .ok y := by
        intro i r hij hi
        have := hok (i + 1) r (Nat.succ_lt_succ hij) (by simpa using hi)
        simpa [hb] using this
      have := ih s1 j record err (by simpa using hk) hrest (by simpa [hb] using herr)
      simp only [mutatedRecords] at hm this ⊢
      simp [Verb.loopEvents, hb, List.filterMap_append, hm, this]

/-! ## Zone resolution -/

/-- C3. When `getZoneID` fails, each of the four public operations returns exactly that
error and no records; its run calls neither the record reader nor a mutator, and it ends in
the world `getZoneID` left (after the error print of `AppendRecords`).  Hence whatever part
of the world `init`, `getZoneID` and `fmt.Println` leave alone, the remote record data in
particular, is the same after the call as before it. -/
theorem zone_failure_aborts (p : Env σ ε κ) (op : Op) (ctx : κ) (zone : String)
    (records : List Record) (s : σ) (err : ε) (s0 : σ)
    (hzone : p.getZoneID ctx zone (op.enter p ctx zone s) = (.error err, s0)) :
    op.run p ctx zone records s = (([], some err), op.leave p err s0) ∧
    (∀ e ∈ op.trace p ctx zone records s, e.isReader = false ∧ e.isMutator = false) ∧
    (∀ (ρ : Type) (remote : σ → ρ),
      (∀ c w, remote (p.init c w) = remote w) →
      (∀ c z w, remote (p.getZoneID c z w).2 = remote w) →
      (∀ o w, remote (p.println o w) = remote w) →
      remote (op.run p ctx zone records s).2 = remote s) := by
  have hrun : op.run p ctx zone records s = (([], some err), op.leave p err s0) := by
    rcases op with _ | v
    · simp only [Op.enter] at hzone
      simp [Op.run, GetRecords, hzone, Op.leave]
    · simp only [Op.run, Verb.run_eq, hzone]
  refine ⟨hrun, ?_, ?_⟩
  · intro e he
    rw [Op.trace_failed p op ctx zone records s err s0 hzone] at he
    rcases op with _ | v
    · simp only [Op.prologue, Op.epilogue, List.cons_append, List.nil_append,
        List.mem_cons, List.mem_nil_iff, or_false] at he
      rcases he with rfl | rfl <;> simp [Event.isReader, Event.isMutator, Event.verb]
    · cases v <;>
        simp only [Op.prologue, Op.epilogue, List.cons_append, List.nil_append,
          List.mem_cons, List.mem_nil_iff, or_false] at he <;>
        rcases he with rfl | rfl | rfl | rfl <;>
        simp [Event.isReader, Event.isMutator, Event.verb]
  · intro ρ remote hinit hlookup hprint
    rw [hrun]
    have h2 := hlookup ctx zone (op.enter p ctx zone s)
    rw [hzone] at h2
    have h1 : remote (op.leave p err s0) = remote s0 := by
      rcases op with _ | v
      · rfl
      · cases v <;> simp [Op.leave, hprint]
    have h3 : remote (op.enter p ctx zone s) = remote s := by
      rcases op with _ | v
      · simp [Op.enter, hinit]
      · cases v <;> simp [Op.enter, hinit, hprint]
    show remote (op.leave p err s0) = remote s
    rw [h1, ← h3]
    exact h2

/-- C4. In every run of every public operation, on any record list, `getZoneID` is called
exactly once; no reader or mutator call comes before it; and every reader or mutator call
of the run is made with the zone ID that this one resolution returned. -/
theorem zone_resolved_once_before_access (p : Env σ ε κ) (op : Op) (ctx : κ)
    (zone : String) (records : List Record) (s : σ) :
    (op.trace p ctx zone records s).countP Event.isZoneLookup = 1 ∧
    ∃ pre post, op.trace p ctx zone records s
        = pre ++ Event.getZoneID zone (p.getZoneID ctx zone (op.enter p ctx zone s)).1 :: post ∧
      (∀ e ∈ pre, e.isZoneLookup = false ∧ e.isReader = false ∧ e.isMutator = false) ∧
      (∀ e ∈ post, e.isZoneLookup = false) ∧
      (∀ e ∈ post, e.isReader = true ∨ e.isMutator = true →
        ∃ zoneID, (p.getZoneID ctx zone (op.enter p ctx zone s)).1 = .ok zoneID ∧
          e.zoneIDArg = some zoneID) := by
  have hpre : ∀ e ∈ (op.prologue zone : List (Event ε)),
      e.isZoneLookup = false ∧ e.isReader = false ∧ e.isMutator = false := by
    intro e he
    rcases op with _ | v
    · simp only [Op.prologue, List.mem_singleton] at he
      subst he
      simp [Event.isZoneLookup, Event.isReader, Event.isMutator, Event.verb]
    · cases v <;> simp only [Op.prologue, List.mem_cons, List.mem_nil_iff, or_false] at he <;>
        rcases he with rfl | rfl <;>
        simp [Event.isZoneLookup, Event.isReader, Event.isMutator, Event.verb]
  have key : ∃ pre post, op.trace p ctx zone records s
        = pre ++ Event.getZoneID zone (p.getZoneID ctx zone (op.enter p ctx zone s)).1 :: post ∧
      (∀ e ∈ pre, e.isZoneLookup = false ∧ e.isReader = false ∧ e.isMutator = false) ∧
      (∀ e ∈ post, e.isZoneLookup = false) ∧
      (∀ e ∈ post, e.isReader = true ∨ e.isMutator = true →
        ∃ zoneID, (p.getZoneID ctx zone (op.enter p ctx zone s)).1 = .ok zoneID ∧
          e.zoneIDArg = some zoneID) := by
    rcases hz : p.getZoneID ctx zone (op.enter p ctx zone s) with ⟨o, s0⟩
    cases o with
    | error err =>
      refine ⟨op.prologue zone, op.epilogue err,
        Op.trace_failed p op ctx zone records s err s0 hz, hpre, ?_, ?_⟩
      · intro e he
        rcases op with _ | v
        · simp [Op.epilogue] at he
        · cases v <;> simp [Op.epilogue] at he
          subst he
          rfl
      · intro e he hacc
        rcases op with _ | v
        · simp [Op.epilogue] at he
        · cases v <;> simp [Op.epilogue] at he
          subst he
          simp [Event.isReader, Event.isMutator, Event.verb] at hacc
    | ok zoneID =>
      rcases op with _ | v
      · refine ⟨[Event.init], [Event.getRecords zoneID zone (p.getRecords ctx zoneID zone s0).1],
          ?_, hpre, ?_, ?_⟩
        · simp only [Op.enter] at hz
          rw [GetRecords_trace_resolved p ctx zone records s zoneID s0 hz]
          rfl
        · intro e he
          simp only [List.mem_singleton] at he
          subst he
          rfl
        · intro e he _
          simp only [List.mem_singleton] at he
          subst he
          exact ⟨zoneID, rfl, rfl⟩
      · refine ⟨Op.prologue (.Mutate v) zone, v.loopEvents p ctx zoneID zone records s0,
          Verb.trace_resolved p v ctx zone records s zoneID s0 hz, hpre, ?_, ?_⟩
        · intro e he
          exact (Verb.loopEvents_kinds p v ctx zoneID zone records s0 e he).2.1
        · intro e he hacc
          have hk := Verb.loopEvents_kinds p v ctx zoneID zone records s0 e he
          rcases hacc with hr | hm
          · rw [hk.2.2.1] at hr
            cases hr
          · exact ⟨zoneID, rfl, (hk.2.2.2 hm).2⟩
  refine ⟨?_, key⟩
  obtain ⟨pre, post, htrace, hpre0, hpost0, -⟩ := key
  rw [htrace, List.countP_append, List.countP_cons]
  have h1 : pre.countP Event.isZoneLookup = 0 :=
    List.countP_eq_zero.mpr (fun e he => by simp [(hpre0 e he).1])
  have h2 : post.countP Event.isZoneLookup = 0 :=
    List.countP_eq_zero.mpr (fun e he => by simp [hpost0 e he])
  simp [h1, h2, Event.isZoneLookup]

/-- C6. `GetRecords` uses the reader only.  With the zone resolved to `zoneID`, it returns
the reader's records, in the reader's order and without error, when
`getRecords(ctx, zoneID, zone)` succeeds, and the reader's error with no records when it
fails; the calls of the run are `init`, `getZoneID` and `getRecords`, never a mutator. -/
theorem getRecords_returns_reader_result (p : Env σ ε κ) (ctx : κ) (zone : String)
    (s : σ) (zoneID : String) (s0 : σ)
    (hzone : p.getZoneID ctx zone (p.init ctx s) = (.ok zoneID, s0)) :
    (∀ records s1, p.getRecords ctx zoneID zone s0 = (.ok records, s1) →
      GetRecords p ctx zone s = ((records, none), s1)) ∧
    (∀ err s1, p.getRecords ctx zoneID zone s0 = (.error err, s1) →
      GetRecords p ctx zone s = (([], some err), s1)) ∧
    Op.trace p .Get ctx zone [] s
      = [Event.init, Event.getZoneID zone (.ok zoneID),
          Event.getRecords zoneID zone (p.getRecords ctx zoneID zone s0).1] ∧
    (∀ e ∈ Op.trace p .Get ctx zone [] s, e.isMutator = false) := by
  refine ⟨?_, ?_, GetRecords_trace_resolved p ctx zone [] s zoneID s0 hzone, ?_⟩
  · intro records s1 hr
    simp [GetRecords, hzone, hr]
  · intro err s1 hr
    simp [GetRecords, hzone, hr]
  · intro e he
    rw [GetRecords_trace_resolved p ctx zone [] s zoneID s0 hzone] at he
    simp only [List.mem_cons, List.mem_nil_iff, or_false] at he
    rcases he with rfl | rfl | rfl <;> simp [Event.isMutator, Event.verb]

/-! ## Order and extent of the mutator calls -/

/-- C8. With the zone resolved, the records a run calls the mutator on are an initial
segment of the input in input order, one call per position, and every mutator call is a
call of the operation's own mutator.  Either every mutation succeeds and the segment is the
whole input, or there is a first record the mutator fails on and the segment ends with that
record: nothing after it is submitted. -/
theorem mutator_calls_follow_input (p : Env σ ε κ) (v : Verb) (ctx : κ)
    (zone : String) (records : List Record) (s : σ) (zoneID : String) (s0 : σ)
    (hzone : p.getZoneID ctx zone (Op.enter p (.Mutate v) ctx zone s) = (.ok zoneID, s0)) :
    mutatedRecords (Op.trace p (.Mutate v) ctx zone records s) <+: records ∧
    (∀ e ∈ Op.trace p (.Mutate v) ctx zone records s,
      e.isMutator = true → e.verb = some v) ∧
    (((∀ i record, records[i]? = some record →
          ∃ x, v.outcomeAt p ctx zoneID zone records s0 i record = .ok x) ∧
        mutatedRecords (Op.trace p (.Mutate v) ctx zone records s) = records) ∨
      ∃ k record err, records[k]? = some record ∧
        (∀ i r, i < k → records[i]? = some r →
          ∃ x, v.outcomeAt p ctx zoneID zone records s0 i r = .ok x) ∧
        v.outcomeAt p ctx zoneID zone records s0 k record = .error err ∧
        mutatedRecords (Op.trace p (.Mutate v) ctx zone records s)
          = records.take (k + 1)) := by
  have hpro : mutatedRecords (Op.trace p (.Mutate v) ctx zone records s)
      = mutatedRecords (v.loopEvents p ctx zoneID zone records s0) := by
    rw [Verb.trace_resolved p v ctx zone records s zoneID s0 hzone]
    cases v <;> simp [mutatedRecords, Op.prologue, List.filterMap_cons, Event.mutated]
  have hcases : ((∀ i record, records[i]? = some record →
          ∃ x, v.outcomeAt p ctx zoneID zone records s0 i record = .ok x) ∧
        mutatedRecords (Op.trace p (.Mutate v) ctx zone records s) = records) ∨
      ∃ k record err, records[k]? = some record ∧
        (∀ i r, i < k → records[i]? = some r →
          ∃ x, v.outcomeAt p ctx zoneID zone records s0 i r = .ok x) ∧
        v.outcomeAt p ctx zoneID zone records s0 k record = .error err ∧
        mutatedRecords (Op.trace p (.Mutate v) ctx zone records s)
          = records.take (k + 1) := by
    rw [hpro]
    simp only [Verb.outcomeAt_eq]
    rcases rangeLoop_dichotomy (v.body p ctx zoneID zone) records s0 with
      hall | ⟨k, record, err, hk, hok, herr⟩
    · exact Or.inl ⟨hall, Verb.mutated_loop_all_ok p v ctx zoneID zone records s0 hall⟩
    · exact Or.inr ⟨k, record, err, hk, hok, herr,
        Verb.mutated_loop_first_error p v ctx zoneID zone records s0 k record err hk hok herr⟩
  refine ⟨?_, ?_, hcases⟩
  · rcases hcases with ⟨-, hm⟩ | ⟨k, -, -, -, -, -, hm⟩
    · rw [hm]
    · rw [hm]
      exact ⟨records.drop (k + 1), List.take_append_drop (k + 1) records⟩
  · intro e he hmut
    rw [Verb.trace_resolved p v ctx zone records s zoneID s0 hzone] at he
    rcases List.mem_append.mp he with he | he
    · cases v <;> simp only [Op.prologue, List.mem_cons, List.mem_nil_iff, or_false] at he <;>
        rcases he with rfl | rfl <;> simp [Event.isMutator, Event.verb] at hmut
    · rcases List.mem_cons.mp he with rfl | he
      · simp [Event.isMutator, Event.verb] at hmut
      · exact ((Verb.loopEvents_kinds p v ctx zoneID zone records s0 e he).2.2.2 hmut).1

/-- C9. The mutating operations do not roll back.  When the mutator first fails on the
record at index `k`, the operation returns the error and no records, and the world it leaves
is the one reached by running the loop body on the first `k` records in order and then
through the failing iteration, not the world before the call.  On the in-memory provider
each of the three operations returns an error and an empty list from a batch whose third
record is refused, and leaves a world that differs from the initial one. -/
theorem failed_batch_keeps_earlier_effects (p : Env σ ε κ) (v : Verb) (ctx : κ)
    (zone : String) (records : List Record) (s : σ) (zoneID : String) (s0 : σ)
    (k : Nat) (record : Record) (err : ε)
    (hzone : p.getZoneID ctx zone (Op.enter p (.Mutate v) ctx zone s) = (.ok zoneID, s0))
    (hk : records[k]? = some record)
    (hok : ∀ i r, i < k → records[i]? = some r →
      ∃ x, v.outcomeAt p ctx zoneID zone records s0 i r = .ok x)
    (hfail : v.outcomeAt p ctx zoneID zone records s0 k record = .error err) :
    v.run p ctx zone records s
        = (([], some err),
            (v.body p ctx zoneID zone record
              (v.stateAt p ctx zoneID zone records s0 k)).2) ∧
      ∀ w : Verb, ∃ e,
        (w.run Memory.env () "example.com." Memory.batch [Memory.aRecord "10.0.0.9" 60]).1
            = ([], some e) ∧
          (w.run Memory.env () "example.com." Memory.batch [Memory.aRecord "10.0.0.9" 60]).2
            ≠ [Memory.aRecord "10.0.0.9" 60] := by
  simp only [Verb.outcomeAt_eq] at hok hfail
  refine ⟨?_, ?_⟩
  · rw [Verb.run_resolved p v ctx zone records s zoneID s0 hzone,
      rangeLoop_first_error (v.body p ctx zoneID zone) records [] s0 k record err hk hok
        hfail]
    rfl
  · intro w
    cases w <;> exact ⟨"context canceled", rfl, by decide⟩

/-! ## Client initialisation -/

/-- C10, as the code has it.  Every public operation begins by calling `p.init(ctx)`: the
client initialisation step is the first call of every run and is made exactly once in it. -/
theorem init_runs_first_in_every_call (p : Env σ ε κ) (op : Op) (ctx : κ) (zone : String)
    (records : List Record) (s : σ) :
    ∃ rest, op.trace p ctx zone records s = Event.init :: rest ∧
      ∀ e ∈ rest, e.isInit = false := by
  have hpro : ∃ rest0, (op.prologue zone : List (Event ε)) = Event.init :: rest0 ∧
      ∀ e ∈ rest0, e.isInit = false := by
    rcases op with _ | v
    · exact ⟨[], rfl, by simp⟩
    · cases v
      · exact ⟨[Event.println [.str "Appending records for zone: ", .str zone]], rfl,
          by simp [Event.isInit]⟩
      · exact ⟨[], rfl, by simp⟩
      · exact ⟨[], rfl, by simp⟩
  obtain ⟨rest0, hrest0, hno⟩ := hpro
  rcases hz : p.getZoneID ctx zone (op.enter p ctx zone s) with ⟨o, s0⟩
  cases o with
  | error err =>
    refine ⟨rest0 ++ Event.getZoneID zone (.error err) :: op.epilogue err, ?_, ?_⟩
    · rw [Op.trace_failed p op ctx zone records s err s0 hz, hrest0]
      rfl
    · intro e he
      rcases List.mem_append.mp he with he | he
      · exact hno e he
      · rcases List.mem_cons.mp he with rfl | he
        · rfl
        · rcases op with _ | v
          · simp [Op.epilogue] at he
          · cases v <;> simp [Op.epilogue] at he
            subst he
            rfl
  | ok zoneID =>
    rcases op with _ | v
    · refine ⟨[Event.getZoneID zone (.ok zoneID),
        Event.getRecords zoneID zone (p.getRecords ctx zoneID zone s0).1], ?_, ?_⟩
      · simp only [Op.enter] at hz
        exact GetRecords_trace_resolved p ctx zone records s zoneID s0 hz
      · intro e he
        simp only [List.mem_cons, List.mem_nil_iff, or_false] at he
        rcases he with rfl | rfl <;> rfl
    · refine ⟨rest0 ++ Event.getZoneID zone (.ok zoneID) ::
        v.loopEvents p ctx zoneID zone records s0, ?_, ?_⟩
      · rw [Verb.trace_resolved p v ctx zone records s zoneID s0 hz, hrest0]
        rfl
      · intro e he
        rcases List.mem_append.mp he with he | he
        · exact hno e he
        · rcases List.mem_cons.mp he with rfl | he
          · rfl
          · exact (Verb.loopEvents_kinds p v ctx zoneID zone records s0 e he).1

/-- C10, as the claim has it, fails: on the in-memory provider the run of each of the four
public operations contains a call of `p.init`. -/
theorem public_call_runs_init :
    (Op.trace Memory.env .Get () "example.com." Memory.goodBatch []).any Event.isInit = true ∧
    (Op.trace Memory.env (.Mutate .Append) () "example.com." Memory.goodBatch []).any
      Event.isInit = true ∧
    (Op.trace Memory.env (.Mutate .Set) () "example.com." Memory.goodBatch []).any
      Event.isInit = true ∧
    (Op.trace Memory.env (.Mutate .Delete) () "example.com." Memory.goodBatch []).any
      Event.isInit = true :=
  ⟨rfl, rfl, rfl, rfl⟩

/-! ## Deleting records that are not there -/

/-- Appending two acceptable records to the empty in-memory zone returns both, in order. -/
theorem mutation_returns_results_in_order_witness :
    ∃ outs, (Verb.Append.run Memory.env () "example.com." Memory.goodBatch []).1
        = (outs, none) ∧
      outs.length = Memory.goodBatch.length ∧
      ∀ i record, Memory.goodBatch[i]? = some record →
        ∃ x, outs[i]? = some x ∧
          Verb.Append.outcomeAt Memory.env () "Z1" "example.com." Memory.goodBatch [] i record
            = .ok x :=
  mutation_returns_results_in_order Memory.env .Append () "example.com." Memory.goodBatch []
    "Z1" [] rfl (by
      intro i record h
      rcases i with _ | _ | i
      · simp [Memory.goodBatch] at h; subst h; exact ⟨_, rfl⟩
      · simp [Memory.goodBatch] at h; subst h; exact ⟨_, rfl⟩
      · simp [Memory.goodBatch] at h)

/-- Setting the five-record batch, whose third record is refused, returns an error and an
empty list. -/
theorem mutation_error_is_first_failure_witness :
    (Verb.Set.run Memory.env () "example.com." Memory.batch []).1.2 ≠ none ∧
      (Verb.Set.run Memory.env () "example.com." Memory.batch []).1.1 = [] ∧
      ∃ i record err, Memory.batch[i]? = some record ∧
        Verb.Set.outcomeAt Memory.env () "Z1" "example.com." Memory.batch [] i record
          = .error err :=
  have h := mutation_error_is_first_failure Memory.env .Set () "example.com." Memory.batch []
    "Z1" [] rfl
  ⟨by decide, h.2.2 (by decide), h.2.1.mp (by decide)⟩

/-- Appending the five-record batch whose third call is cancelled returns the cancellation
error and at most two records, not five. -/
theorem cancelled_batch_returns_error_witness :
    (Verb.Append.run Memory.env () "example.com." Memory.batch []).1.2
        = some "context canceled" ∧
      (Verb.Append.run Memory.env () "example.com." Memory.batch []).1.1.length ≤ 2 ∧
      (Verb.Append.run Memory.env () "example.com." Memory.batch []).1.1.length
        ≠ Memory.batch.length :=
  cancelled_batch_returns_error Memory.env .Append () "example.com." Memory.batch []
    "Z1" [] 2 (Memory.aRecord "10.0.0.3" (-1)) "context canceled" rfl rfl
    (by
      intro i r hi h
      rcases i with _ | _ | i
      · simp [Memory.batch] at h; subst h; exact ⟨_, rfl⟩
      · simp [Memory.batch] at h; subst h; exact ⟨_, rfl⟩
      · omega)
    rfl

/-- Deleting from a zone that does not resolve returns the resolver error, calls no reader
or mutator and leaves the stored records alone. -/
theorem zone_failure_aborts_witness :
    Op.run Memory.env (.Mutate .Delete) () "" Memory.batch [Memory.aRecord "10.0.0.9" 60]
        = (([], some "zone not found"), [Memory.aRecord "10.0.0.9" 60]) ∧
      (∀ e ∈ Op.trace Memory.env (.Mutate .Delete) () "" Memory.batch
          [Memory.aRecord "10.0.0.9" 60],
        e.isReader = false ∧ e.isMutator = false) ∧
      (Op.run Memory.env (.Mutate .Delete) () "" Memory.batch
          [Memory.aRecord "10.0.0.9" 60]).2 = [Memory.aRecord "10.0.0.9" 60] :=
  have h := zone_failure_aborts Memory.env (.Mutate .Delete) () "" Memory.batch
    [Memory.aRecord "10.0.0.9" 60] "zone not found" [Memory.aRecord "10.0.0.9" 60] rfl
  ⟨h.1, h.2.1, h.2.2 (List Record) id (fun _ _ => rfl)
    (fun _ z w => by simp only [Memory.env]; split <;> rfl) (fun _ _ => rfl)⟩

/-- Listing the in-memory zone returns the stored records as the reader gives them. -/
theorem getRecords_returns_reader_result_witness :
    GetRecords Memory.env () "example.com." Memory.goodBatch
      = ((Memory.goodBatch, none), Memory.goodBatch) :=
  (getRecords_returns_reader_result Memory.env () "example.com." Memory.goodBatch "Z1"
    Memory.goodBatch rfl).1 Memory.goodBatch Memory.goodBatch rfl

/-- The delete calls made for the five-record batch are an initial segment of the batch. -/
theorem mutator_calls_follow_input_witness :
    mutatedRecords (Op.trace Memory.env (.Mutate .Delete) () "example.com." Memory.batch [])
      <+: Memory.batch :=
  (mutator_calls_follow_input Memory.env .Delete () "example.com." Memory.batch [] "Z1" []
    rfl).1

/-- Appending the five-record batch fails at the third record and leaves the world the first
two iterations and the failing one produced. -/
theorem failed_batch_keeps_earlier_effects_witness :
    Verb.Append.run Memory.env () "example.com." Memory.batch []
      = (([], some "context canceled"),
          (Verb.Append.body Memory.env () "Z1" "example.com." (Memory.aRecord "10.0.0.3" (-1))
            (Verb.Append.stateAt Memory.env () "Z1" "example.com." Memory.batch [] 2)).2) :=
  (failed_batch_keeps_earlier_effects Memory.env .Append () "example.com." Memory.batch []
    "Z1" [] 2 (Memory.aRecord "10.0.0.3" (-1)) "context canceled" rfl rfl
    (by
      intro i r hi h
      rcases i with _ | _ | i
      · simp [Memory.batch] at h; subst h; exact ⟨_, rfl⟩
      · simp [Memory.batch] at h; subst h; exact ⟨_, rfl⟩
      · omega)
    rfl).1

end Route53
